import Mathlib

/-
Shallow embedding of the publish reconciliation engine of the
flowershow/obsidian-flowershow plugin.

Paths and other JavaScript strings are modelled as `List Char`; byte buffers
(`ArrayBuffer` / `Uint8Array`) as `List Nat`.  The JavaScript regular-expression
engine and the `crypto.subtle.digest` platform primitive are external
collaborators of the repository, so they enter the model as explicit function
parameters (`RegexEngine`, `DigestFn`); everything else is translated from the
repository's own source.

Two versions of the Publisher coexist in the sources: `src/src/Publisher.ts`
(an older revision) and the current `Publisher.ts` carried in
`src/unnamed/part_001` (lines 872-1270), which matches changelog entries
4.0.9/4.0.10 (publish:false skipping, normalized deletion paths).  The engine
definitions below follow the current revision; the helper functions follow
`src/src/utils/publisherHelpers.ts` and the `utils` module carried in
`src/unnamed/part_003`.
-/

/-- Model of an Obsidian `TFile` together with the vault reads the engine
performs on it: `text` is what `vault.cachedRead` returns and `bytes` what
`vault.readBinary` returns. -/
structure TFileModel where
  path : List Char
  extension : List Char
  size : Nat
  text : List Char
  bytes : List Nat
deriving DecidableEq

/-- Front-matter values as relevant to the engine: the code only ever compares
a front-matter field against the boolean `false` with `===`. -/
inductive FmValue where
  | bool (b : Bool)
  | str (s : List Char)
  | num (n : Int)
deriving DecidableEq

/-- Model of Obsidian's `CachedMetadata` (only the front-matter is read). -/
structure CachedMetadata where
  frontmatter : Option (List (List Char × FmValue))
deriving DecidableEq

/-- Model of the Obsidian `App` as consumed by the engine:
`app.metadataCache.getCache(path)`. -/
structure AppModel where
  getCache : List Char → Option CachedMetadata

/-- Model of the JavaScript regular-expression engine: `re pat` is
`some test` when `new RegExp(pat)` succeeds, with `test` the compiled
`regex.test` predicate, and `none` when the `RegExp` constructor throws. -/
abbrev RegexEngine := List Char → Option (List Char → Bool)

namespace PublisherHelpers

/-- Embeds `path.replace(/^\/+/, "")`. -/
def stripLeadingSlashes (p : List Char) : List Char :=
  p.dropWhile (fun c => c == '/')

/-- Embeds `rootDir.replace(/^\/+|\/+$/g, "")`: one leading run and one
trailing run of slashes are removed. -/
def trimSlashes (r : List Char) : List Char :=
  ((r.dropWhile (fun c => c == '/')).reverse.dropWhile (fun c => c == '/')).reverse

/-- Embeds `normalizePath` from `src/src/utils/publisherHelpers.ts` (lines
12-25): strip leading slashes, then, when a root directory is configured,
strip the `rootDir + "/"` prefix, or map a path equal to the root directory
itself to the empty string. -/
def normalizePath (path rootDir : List Char) : List Char :=
  let normalizedPath := stripLeadingSlashes path
  if rootDir.isEmpty then normalizedPath
  else
    let rootDirNormalized := trimSlashes rootDir
    if (rootDirNormalized ++ ['/']).isPrefixOf normalizedPath then
      normalizedPath.drop (rootDirNormalized.length + 1)
    else if normalizedPath == rootDirNormalized then []
    else normalizedPath

/-- Embeds `isWithinRootDir` from `src/src/utils/publisherHelpers.ts` (lines
30-42). -/
def isWithinRootDir (path rootDir : List Char) : Bool :=
  if rootDir.isEmpty then true
  else
    let rootDirNormalized := trimSlashes rootDir
    let pathNormalized := stripLeadingSlashes path
    (rootDirNormalized ++ ['/']).isPrefixOf pathNormalized
      || pathNormalized == rootDirNormalized

/-- Embeds `matchesExcludePatterns` from `src/src/utils/publisherHelpers.ts`
(lines 47-64): any pattern that compiles and matches excludes the path; a
pattern whose compilation throws is treated as non-matching. -/
def matchesExcludePatterns (re : RegexEngine) (path : List Char)
    (excludePatterns : List (List Char)) : Bool :=
  if excludePatterns.isEmpty then false
  else
    excludePatterns.any fun pattern =>
      match re pattern with
      | some test => test path
      | none => false

/-- Embeds `ext.toLowerCase()` (the arguments in this code base are ASCII
extension strings, where JavaScript and `Char.toLower` agree). -/
def toLowerCase (s : List Char) : List Char :=
  s.map Char.toLower

/-- The thirteen extensions listed in `isPlainTextExtension` of
`src/src/utils/publisherHelpers.ts` (lines 67-81). -/
def plainTextExtensions : List (List Char) :=
  ["md".data, "mdx".data, "txt".data, "json".data, "yaml".data, "yml".data,
   "css".data, "js".data, "ts".data, "html".data, "xml".data, "csv".data,
   "tsv".data]

/-- Embeds `isPlainTextExtension` from `src/src/utils/publisherHelpers.ts`
(lines 66-83): `plainTextExtensions.includes(ext.toLowerCase())`. -/
def isPlainTextExtension (ext : List Char) : Bool :=
  plainTextExtensions.contains (toLowerCase ext)

/-- Lookup of a front-matter key, modelling `frontmatter?.["publish"]`. -/
def fmGet (fm : List (List Char × FmValue)) (key : List Char) : Option FmValue :=
  (fm.find? (fun kv => kv.1 == key)).map (fun kv => kv.2)

/-- Embeds `hasPublishFalse` from `src/src/utils/publisherHelpers.ts` (lines
86-92): only `md`/`mdx` files are consulted, and only a strict boolean
`publish: false` front-matter value counts. -/
def hasPublishFalse (file : TFileModel) (app : AppModel) : Bool :=
  if !(file.extension == "md".data) && !(file.extension == "mdx".data) then
    false
  else
    match app.getCache file.path with
    | none => false
    | some cachedFile =>
      match cachedFile.frontmatter with
      | none => false
      | some fm =>
        match fmGet fm ("publish".data) with
        | some (FmValue.bool false) => true
        | _ => false

/-- Embeds `shouldSkipFile` from `src/src/utils/publisherHelpers.ts` (lines
98-109). -/
def shouldSkipFile (re : RegexEngine) (file : TFileModel) (app : AppModel)
    (rootDir : List Char) (excludePatterns : List (List Char)) : Bool :=
  !isWithinRootDir file.path rootDir
    || matchesExcludePatterns re file.path excludePatterns
    || hasPublishFalse file app

end PublisherHelpers

namespace Utils

/-- The two digest algorithm names accepted by the `digest` helper of the
`utils` module (`src/unnamed/part_003`). -/
inductive GitAlgo where
  | sha1
  | sha256
deriving DecidableEq

/-- Model of the `crypto.subtle.digest` platform primitive: given the
algorithm and the input bytes it yields the hex string produced by
`digest`/`hex` in `src/unnamed/part_003` (lines 1-18). -/
abbrev DigestFn := GitAlgo → List Nat → List Char

/-- UTF-8 encoding of one character, as performed by `TextEncoder`. -/
def utf8EncodeChar (c : Char) : List Nat :=
  let n := c.toNat
  if n < 128 then [n]
  else if n < 2048 then [192 + n / 64, 128 + n % 64]
  else if n < 65536 then [224 + n / 4096, 128 + (n / 64) % 64, 128 + n % 64]
  else
    [240 + n / 262144, 128 + (n / 4096) % 64, 128 + (n / 64) % 64, 128 + n % 64]

/-- UTF-8 encoding of a string, as performed by `new TextEncoder().encode`. -/
def utf8Encode (s : List Char) : List Nat :=
  (s.map utf8EncodeChar).flatten

/-- Embeds `calculateFileSha` from `src/unnamed/part_003` (lines 25-33):
SHA-1 over the raw bytes.  (`ArrayBuffer` and `Uint8Array` inputs carry the
same bytes, modelled uniformly as `List Nat`.) -/
def calculateFileSha (digest : DigestFn) (content : List Nat) : List Char :=
  digest GitAlgo.sha1 content

/-- Embeds `calculateTextSha` from `src/unnamed/part_003` (lines 40-44):
SHA-1 over the UTF-8 encoding of the text. -/
def calculateTextSha (digest : DigestFn) (text : List Char) : List Char :=
  digest GitAlgo.sha1 (utf8Encode text)

/-- Embeds `isPlainTextExtension` from the `utils` module
(`src/unnamed/part_003`, lines 53-55): a six-element, case-sensitive list.
This is the variant the current Publisher imports from `"./utils"`. -/
def isPlainTextExtension (ext : List Char) : Bool :=
  ["md".data, "mdx".data, "json".data, "yaml".data, "yml".data,
   "css".data].contains ext

/-- Embeds the `FlowershowError` class (`src/unnamed/part_003`, lines 46-51):
every error the engine throws carries a message string. -/
structure FlowershowError where
  message : List Char
deriving DecidableEq

end Utils

namespace Publisher

/-- Embeds the `FileMetadata` interface of `src/src/FlowershowClient.ts`. -/
structure FileMetadata where
  path : List Char
  size : Nat
  sha : List Char
deriving DecidableEq

/-- Embeds the `UploadUrl` interface of `src/src/FlowershowClient.ts` (an
upload directive returned by the server). -/
structure UploadUrl where
  path : List Char
  uploadUrl : List Char
  blobId : List Char
  contentType : List Char
deriving DecidableEq

/-- Embeds the `summary` field of `SyncFilesResponse`. -/
structure SyncSummary where
  toUpload : Nat
  toUpdate : Nat
  deleted : Nat
  unchanged : Nat
deriving DecidableEq

/-- Embeds the `SyncFilesResponse` interface of
`src/src/FlowershowClient.ts`. -/
structure SyncFilesResponse where
  toUpload : List UploadUrl
  toUpdate : List UploadUrl
  deleted : List (List Char)
  unchanged : List (List Char)
  summary : SyncSummary
  dryRun : Option Bool
deriving DecidableEq

/-- Embeds the `DeleteFilesResponse` interface of
`src/src/FlowershowClient.ts`. -/
structure DeleteFilesResponse where
  deleted : List (List Char)
  notFound : List (List Char)
deriving DecidableEq

/-- Embeds the `PublishFilesResponse` interface of
`src/src/FlowershowClient.ts`. -/
structure PublishFilesResponse where
  files : List UploadUrl
deriving DecidableEq

/-- Embeds the `Site` interface of `src/src/FlowershowClient.ts`. -/
structure Site where
  id : List Char
  projectName : List Char
  url : List Char
  userId : List Char
  createdAt : List Char
  updatedAt : Option (List Char)
  fileCount : Option Nat
  totalSize : Option Nat
deriving DecidableEq

/-- Embeds the `PublishStatus` interface of the Publisher. -/
structure PublishStatus where
  unchangedFiles : List TFileModel
  changedFiles : List TFileModel
  newFiles : List TFileModel
  deletedFiles : List (List Char)
deriving DecidableEq

/-- The observable steps of one `publishBatch` run: progress-reporter signals
(`PublishStatusBar.start/incrementDelete/incrementPublish/finish`) and remote
calls made through the `FlowershowClient`, in order. -/
inductive Event where
  | progressStart (publishTotal deleteTotal : Nat)
  | callEnsureSite
  | callDeleteFiles (siteId : List Char) (paths : List (List Char))
  | incrementDelete
  | callPublishFiles (siteId : List Char) (files : List FileMetadata)
  | callUploadToR2 (uploadUrl : List Char) (content : List Nat)
      (contentType : List Char)
  | incrementPublish
  | progressFinish (ms : Nat)
  | callGetSite
deriving DecidableEq

/-- Oracle giving the outcome of each remote interaction of one
`publishBatch` run: `ensureSite` (resolve-or-create, yielding the site id),
the batch delete, the publish-files negotiation, each storage PUT (keyed by
its upload URL; `some e` models a thrown upload error), and the final
`getUsername`/`getSiteByName` pair used to report the site URL. -/
structure RemoteOracle where
  ensureSiteOutcome : Except Utils.FlowershowError (List Char)
  deleteOutcome : Except Utils.FlowershowError DeleteFilesResponse
  publishOutcome : Except Utils.FlowershowError PublishFilesResponse
  uploadOutcome : List Char → Option Utils.FlowershowError
  siteInfoOutcome : Except Utils.FlowershowError (Option Site)

/-- The value `publishBatch` resolves with. -/
structure BatchResult where
  siteUrl : List Char
  filesPublished : Nat
deriving DecidableEq

/-- The `opts` argument of `publishBatch`; an absent (`undefined`) list and an
empty list behave identically in the source (`opts.list?.length` is falsy for
both), so both are modelled as `[]`. -/
structure BatchOpts where
  filesToPublish : List TFileModel
  filesToDelete : List (List Char)
deriving DecidableEq

/-- The message of the validation error thrown on an empty batch. -/
def noFilesMessage : List Char :=
  "No files to delete or publish provided".data

/-- Embeds `Array.prototype.join(", ")`. -/
def joinComma : List (List Char) → List Char
  | [] => []
  | [p] => p
  | p :: ps => p ++ ", ".data ++ joinComma ps

/-- The message of the error thrown when the batch delete reports not-found
paths: `Failed to delete ${n} file(s): ${paths.join(", ")}. Files not found
on server.` -/
def deleteFailedMessage (notFound : List (List Char)) : List Char :=
  "Failed to delete ".data ++ (Nat.repr notFound.length).data
    ++ " file(s): ".data ++ joinComma notFound
    ++ ". Files not found on server.".data

/-- SHA computation for one file as done in `publishBatch` /
`getPublishStatus` of the current Publisher: plain-text extensions (per the
`utils` module predicate) hash their `cachedRead` text via `calculateTextSha`,
everything else hashes its raw bytes via `calculateFileSha`. -/
def fileSha (digest : Utils.DigestFn) (file : TFileModel) : List Char :=
  if Utils.isPlainTextExtension file.extension then
    Utils.calculateTextSha digest file.text
  else
    Utils.calculateFileSha digest file.bytes

/-- Content bytes uploaded for one file: text files are UTF-8 encoded with
`TextEncoder`, binary files are read as raw bytes. -/
def fileContent (file : TFileModel) : List Nat :=
  if Utils.isPlainTextExtension file.extension then
    Utils.utf8Encode file.text
  else
    file.bytes

/-- The `{path, size, sha}` record built per file before `publishFiles` /
`syncFiles`. -/
def buildFileMetadata (digest : Utils.DigestFn) (rootDir : List Char)
    (file : TFileModel) : FileMetadata :=
  ⟨PublisherHelpers.normalizePath file.path rootDir, file.size,
    fileSha digest file⟩

/-- Embeds the deletion phase of `publishBatch` (current Publisher,
`src/unnamed/part_001` lines 1038-1061): when deletions are requested the
paths are normalized, `client.deleteFiles` is called, a non-empty `notFound`
in the response raises the reconciliation error, otherwise the delete counter
is advanced.  Returns the emitted events and the thrown error, if any. -/
def runDelete (oracle : RemoteOracle) (rootDir : List Char)
    (filesToDelete : List (List Char)) (siteId : List Char) :
    List Event × Option Utils.FlowershowError :=
  if filesToDelete.isEmpty then ([], none)
  else
    let normalizedPathsToDelete :=
      filesToDelete.map (fun p => PublisherHelpers.normalizePath p rootDir)
    match oracle.deleteOutcome with
    | Except.error e =>
      ([Event.callDeleteFiles siteId normalizedPathsToDelete], some e)
    | Except.ok deleteResult =>
      if deleteResult.notFound.isEmpty then
        ([Event.callDeleteFiles siteId normalizedPathsToDelete,
          Event.incrementDelete], none)
      else
        ([Event.callDeleteFiles siteId normalizedPathsToDelete],
         some ⟨deleteFailedMessage deleteResult.notFound⟩)

/-- Embeds the upload loop of `publishBatch` (current Publisher,
`src/unnamed/part_001` lines 1098-1122): for each upload directive, the local
file with the matching normalized path is located (a directive with no match
is skipped), its content is PUT to the directive's URL, and the publish
counter is advanced; a thrown upload error stops the loop. -/
def runUploads (oracle : RemoteOracle) (filesToProcess : List TFileModel)
    (rootDir : List Char) :
    List UploadUrl → List Event × Option Utils.FlowershowError
  | [] => ([], none)
  | uploadInfo :: rest =>
    match filesToProcess.find?
        (fun f =>
          PublisherHelpers.normalizePath f.path rootDir == uploadInfo.path) with
    | none => runUploads oracle filesToProcess rootDir rest
    | some file =>
      match oracle.uploadOutcome uploadInfo.uploadUrl with
      | some e =>
        ([Event.callUploadToR2 uploadInfo.uploadUrl (fileContent file)
            uploadInfo.contentType], some e)
      | none =>
        let r := runUploads oracle filesToProcess rootDir rest
        (Event.callUploadToR2 uploadInfo.uploadUrl (fileContent file)
            uploadInfo.contentType :: Event.incrementPublish :: r.1, r.2)

/-- Embeds the publishing phase of `publishBatch` (current Publisher,
`src/unnamed/part_001` lines 1064-1123): metadata for the selected files is
built, `client.publishFiles` is called, and the returned directives are
uploaded in order. -/
def runPublish (oracle : RemoteOracle) (digest : Utils.DigestFn)
    (rootDir : List Char) (filesToPublish : List TFileModel)
    (siteId : List Char) : List Event × Option Utils.FlowershowError :=
  if filesToPublish.isEmpty then ([], none)
  else
    let fileMetadata := filesToPublish.map (buildFileMetadata digest rootDir)
    match oracle.publishOutcome with
    | Except.error e => ([Event.callPublishFiles siteId fileMetadata], some e)
    | Except.ok publishResult =>
      let r := runUploads oracle filesToPublish rootDir publishResult.files
      (Event.callPublishFiles siteId fileMetadata :: r.1, r.2)

/-- Embeds `publishBatch` of the current Publisher (`src/unnamed/part_001`
lines 1017-1145).  The returned pair is the ordered event trace (progress
signals and remote calls) and the promise outcome.  The empty-batch guard
fires before the progress-start signal and before any remote interaction; the
`catch` block re-emits `finish(0)` before re-throwing. -/
def publishBatch (oracle : RemoteOracle) (digest : Utils.DigestFn)
    (rootDir : List Char) (opts : BatchOpts) :
    List Event × Except Utils.FlowershowError BatchResult :=
  if opts.filesToPublish.isEmpty && opts.filesToDelete.isEmpty then
    ([], Except.error ⟨noFilesMessage⟩)
  else
    let started := [Event.progressStart opts.filesToPublish.length
        opts.filesToDelete.length, Event.callEnsureSite]
    match oracle.ensureSiteOutcome with
    | Except.error e => (started ++ [Event.progressFinish 0], Except.error e)
    | Except.ok siteId =>
      let del := runDelete oracle rootDir opts.filesToDelete siteId
      match del.2 with
      | some e =>
        (started ++ del.1 ++ [Event.progressFinish 0], Except.error e)
      | none =>
        let pub := runPublish oracle digest rootDir opts.filesToPublish siteId
        match pub.2 with
        | some e =>
          (started ++ del.1 ++ pub.1 ++ [Event.progressFinish 0],
           Except.error e)
        | none =>
          let base := started ++ del.1 ++ pub.1
            ++ [Event.progressFinish 2000, Event.callGetSite]
          match oracle.siteInfoOutcome with
          | Except.error e =>
            (base ++ [Event.progressFinish 0], Except.error e)
          | Except.ok siteInfo =>
            (base,
             Except.ok
               ⟨(match siteInfo with | some s => s.url | none => []),
                opts.filesToPublish.length + opts.filesToDelete.length⟩)

/-- A file survives the `shouldSkipFile` guard of the status loops. -/
def notSkipped (re : RegexEngine) (app : AppModel) (rootDir : List Char)
    (excludePatterns : List (List Char)) (f : TFileModel) : Bool :=
  !PublisherHelpers.shouldSkipFile re f app rootDir excludePatterns

/-- Embeds `getPublishStatus` of the current Publisher
(`src/unnamed/part_001` lines 1148-1269).  `existingSite` is the result of the
initial `getSiteByName` probe; `syncOutcome` is the awaited result of the
dry-run `client.syncFiles` call (`Except.error` models a thrown exception,
which the source catches and answers by classifying every non-skipped file as
new).  The three filters spell out the single categorize loop: its
`if / else if / else if` chain assigns each non-skipped file to the first of
`unchanged` / `toUpdate` / `toUpload` that mentions the file's normalized
path, and drops the file when none does; `deletedFiles` receives
`syncResult.deleted` verbatim. -/
def getPublishStatus (re : RegexEngine) (app : AppModel) (rootDir : List Char)
    (excludePatterns : List (List Char)) (localFiles : List TFileModel)
    (existingSite : Option Site)
    (syncOutcome : Except Utils.FlowershowError SyncFilesResponse) :
    PublishStatus :=
  match existingSite with
  | none =>
    ⟨[], [], localFiles.filter (notSkipped re app rootDir excludePatterns), []⟩
  | some _ =>
    match syncOutcome with
    | Except.error _ =>
      ⟨[], [],
       localFiles.filter (notSkipped re app rootDir excludePatterns), []⟩
    | Except.ok syncResult =>
      ⟨localFiles.filter (fun f =>
          notSkipped re app rootDir excludePatterns f
            && syncResult.unchanged.contains
              (PublisherHelpers.normalizePath f.path rootDir)),
       localFiles.filter (fun f =>
          notSkipped re app rootDir excludePatterns f
            && !syncResult.unchanged.contains
              (PublisherHelpers.normalizePath f.path rootDir)
            && syncResult.toUpdate.any (fun u =>
              u.path == PublisherHelpers.normalizePath f.path rootDir)),
       localFiles.filter (fun f =>
          notSkipped re app rootDir excludePatterns f
            && !syncResult.unchanged.contains
              (PublisherHelpers.normalizePath f.path rootDir)
            && !syncResult.toUpdate.any (fun u =>
              u.path == PublisherHelpers.normalizePath f.path rootDir)
            && syncResult.toUpload.any (fun u =>
              u.path == PublisherHelpers.normalizePath f.path rootDir)),
       syncResult.deleted⟩

end Publisher

/-- A regex engine on which every pattern fails to compile (used to
instantiate witnesses; any concrete engine would do). -/
def re0 : RegexEngine := fun _ => none

/-- A concrete digest function for witnesses (the claims under test do not
depend on the digest's values). -/
def digest0 : Utils.DigestFn := fun _ _ => []

/-- An app model whose metadata cache is empty. -/
def emptyApp : AppModel := ⟨fun _ => none⟩

/-- An app model that reports `publish: false` front-matter for every path. -/
def publishFalseApp : AppModel :=
  ⟨fun _ => some ⟨some [("publish".data, FmValue.bool false)]⟩⟩

/-- A concrete non-markdown vault file. -/
def pngFile : TFileModel :=
  ⟨"image.png".data, "png".data, 3, [], [1, 2, 3]⟩

/-- A concrete markdown vault file `a.md`. -/
def aFile : TFileModel :=
  ⟨"a.md".data, "md".data, 2, "hi".data, []⟩

/-- A concrete remote site. -/
def site0 : Publisher.Site :=
  ⟨"site1".data, "my-site".data, "https://my.site".data, "u1".data,
   "2024-01-01".data, none, none, none⟩

/-- A sync response whose four path lists are all empty except `deleted`,
which reports `a.md` — a path that does exist locally. -/
def cexSyncResponse : Publisher.SyncFilesResponse :=
  ⟨[], [], ["a.md".data], [], ⟨0, 0, 1, 0⟩, some true⟩

/-- A sync response that reports `a.md` as unchanged. -/
def unchangedSyncResponse : Publisher.SyncFilesResponse :=
  ⟨[], [], [], ["a.md".data], ⟨0, 0, 0, 1⟩, some true⟩

/-- An oracle whose batch delete reports `old.md` as not found. -/
def delOracle : Publisher.RemoteOracle :=
  ⟨Except.ok ("s1".data), Except.ok ⟨[], [("old.md".data)]⟩,
   Except.ok ⟨[]⟩, fun _ => none, Except.ok (some site0)⟩

/-- Upload directive for `a.md`. -/
def u1 : Publisher.UploadUrl :=
  ⟨"a.md".data, "url1".data, "b1".data, "text/markdown".data⟩

/-- Upload directive for `b.md`. -/
def u2 : Publisher.UploadUrl :=
  ⟨"b.md".data, "url2".data, "b2".data, "text/markdown".data⟩

/-- A second concrete markdown vault file `b.md`. -/
def bFile : TFileModel :=
  ⟨"b.md".data, "md".data, 2, "B!".data, []⟩

/-- An oracle on which the storage PUT for `url1` fails (first upload of the
batch fails). -/
def uploadFailOracle : Publisher.RemoteOracle :=
  ⟨Except.ok ("s1".data), Except.ok ⟨[], []⟩, Except.ok ⟨[u1, u2]⟩,
   fun url =>
     if url == "url1".data then some ⟨"Failed to upload file: 500".data⟩
     else none,
   Except.ok (some site0)⟩

/-- An oracle on which the first storage PUT succeeds and the second
(`url2`) fails. -/
def partialFailOracle : Publisher.RemoteOracle :=
  ⟨Except.ok ("s1".data), Except.ok ⟨[], []⟩, Except.ok ⟨[u1, u2]⟩,
   fun url =>
     if url == "url2".data then some ⟨"Failed to upload file: 502".data⟩
     else none,
   Except.ok (some site0)⟩

/- ===================== Helper lemmas ===================== -/

/-- The delete phase always sends the normalized paths: any
`callDeleteFiles` it emits carries `filesToDelete.map (normalizePath ·
rootDir)`, and it emits one whenever deletions were requested. -/
theorem runDelete_mem_call (oracle : Publisher.RemoteOracle)
    (rootDir : List Char) (filesToDelete : List (List Char))
    (siteId : List Char) (h : filesToDelete ≠ []) :
    Publisher.Event.callDeleteFiles siteId
        (filesToDelete.map (fun p => PublisherHelpers.normalizePath p rootDir))
      ∈ (Publisher.runDelete oracle rootDir filesToDelete siteId).1 := by
  have he : filesToDelete.isEmpty = false := by
    simp [List.isEmpty_iff, h]
  unfold Publisher.runDelete
  cases hdo : oracle.deleteOutcome with
  | error e => simp [he, hdo]
  | ok res => cases hnf : res.notFound.isEmpty <;> simp [he, hdo, hnf]

/-- On a non-empty batch with a resolved site, the trace of `publishBatch`
starts with the progress-start signal, the site resolution, and the delete
phase's events, whatever happens later. -/
theorem publishBatch_trace_structure (oracle : Publisher.RemoteOracle)
    (digest : Utils.DigestFn) (rootDir : List Char) (opts : Publisher.BatchOpts)
    (siteId : List Char)
    (hguard : (opts.filesToPublish.isEmpty && opts.filesToDelete.isEmpty) = false)
    (hsite : oracle.ensureSiteOutcome = Except.ok siteId) :
    ∃ tail, (Publisher.publishBatch oracle digest rootDir opts).1
      = [Publisher.Event.progressStart opts.filesToPublish.length
            opts.filesToDelete.length,
         Publisher.Event.callEnsureSite]
        ++ (Publisher.runDelete oracle rootDir opts.filesToDelete siteId).1
        ++ tail := by
  unfold Publisher.publishBatch
  cases hdel : (Publisher.runDelete oracle rootDir opts.filesToDelete siteId).2 with
  | some e =>
    exact ⟨[Publisher.Event.progressFinish 0], by simp [hguard, hsite, hdel]⟩
  | none =>
    cases hpub :
        (Publisher.runPublish oracle digest rootDir opts.filesToPublish siteId).2 with
    | some e =>
      exact ⟨(Publisher.runPublish oracle digest rootDir opts.filesToPublish
          siteId).1 ++ [Publisher.Event.progressFinish 0],
        by simp [hguard, hsite, hdel, hpub]⟩
    | none =>
      cases hsi : oracle.siteInfoOutcome with
      | error e =>
        exact ⟨(Publisher.runPublish oracle digest rootDir opts.filesToPublish
            siteId).1 ++ [Publisher.Event.progressFinish 2000,
            Publisher.Event.callGetSite, Publisher.Event.progressFinish 0],
          by simp [hguard, hsite, hdel, hpub, hsi]⟩
      | ok siteInfo =>
        exact ⟨(Publisher.runPublish oracle digest rootDir opts.filesToPublish
            siteId).1 ++ [Publisher.Event.progressFinish 2000,
            Publisher.Event.callGetSite],
          by simp [hguard, hsite, hdel, hpub, hsi]⟩

/-- Every member of a list is an infix of its comma-join. -/
theorem mem_infix_joinComma {p : List Char} {l : List (List Char)}
    (h : p ∈ l) : p <:+: Publisher.joinComma l := by
  induction l with
  | nil => cases h
  | cons q rest ih =>
    cases rest with
    | nil =>
      have hp : p = q := by simpa using h
      subst hp
      have hq : Publisher.joinComma [p] = p := rfl
      rw [hq]
    | cons q' rest' =>
      rcases List.mem_cons.mp h with rfl | hmem
      · refine ⟨[], ", ".data ++ Publisher.joinComma (q' :: rest'), ?_⟩
        have hj : Publisher.joinComma (p :: q' :: rest')
            = p ++ ", ".data ++ Publisher.joinComma (q' :: rest') := rfl
        rw [hj]
        simp
      · obtain ⟨s, t, hst⟩ := ih hmem
        refine ⟨q ++ ", ".data ++ s, t, ?_⟩
        have hj : Publisher.joinComma (q :: q' :: rest')
            = q ++ ", ".data ++ Publisher.joinComma (q' :: rest') := rfl
        rw [hj, ← hst]
        simp

/-- Every not-found path is named (as an infix) in the delete-failure
message. -/
theorem mem_infix_deleteFailedMessage {p : List Char}
    {nf : List (List Char)} (h : p ∈ nf) :
    p <:+: Publisher.deleteFailedMessage nf := by
  obtain ⟨s, t, hst⟩ := mem_infix_joinComma h
  exact ⟨"Failed to delete ".data ++ (Nat.repr nf.length).data
      ++ " file(s): ".data ++ s,
    t ++ ". Files not found on server.".data, by
      rw [Publisher.deleteFailedMessage, ← hst]
      simp⟩

/- ===================== Theorems ===================== -/

/-- C7: for every string, the fingerprint computed from the text
(`calculateTextSha`, which UTF-8-encodes and digests) equals the fingerprint
computed by `calculateFileSha` from the raw UTF-8 bytes of the string, and
both are the same digest algorithm (SHA-1) applied to those bytes. -/
theorem calculateTextSha_eq_calculateFileSha (digest : Utils.DigestFn)
    (s : List Char) :
    Utils.calculateTextSha digest s
        = Utils.calculateFileSha digest (Utils.utf8Encode s)
      ∧ Utils.calculateTextSha digest s
        = digest Utils.GitAlgo.sha1 (Utils.utf8Encode s)
      ∧ Utils.calculateFileSha digest (Utils.utf8Encode s)
        = digest Utils.GitAlgo.sha1 (Utils.utf8Encode s) :=
  ⟨rfl, rfl, rfl⟩

/-- C8 counterexample: the repository carries two predicates named
`isPlainTextExtension`.  The variant in the `utils` module
(`src/unnamed/part_003`, the one the current Publisher imports) rejects
`txt` and is case-sensitive, refuting the claimed thirteen-extension,
case-insensitive behaviour; the variant in `publisherHelpers.ts` accepts
both. -/
theorem isPlainTextExtension_cex :
    Utils.isPlainTextExtension ("txt".data) = false
      ∧ Utils.isPlainTextExtension ("MD".data) = false
      ∧ PublisherHelpers.isPlainTextExtension ("txt".data) = true
      ∧ PublisherHelpers.isPlainTextExtension ("MD".data) = true := by
  refine ⟨?_, ?_, ?_, ?_⟩ <;> decide

/-- C8 amended: the `publisherHelpers.ts` predicate returns true exactly for
the thirteen listed extensions, case-insensitively, while the `utils`-module
predicate (imported by the current Publisher) returns true exactly for the
six extensions `md, mdx, json, yaml, yml, css`, case-sensitively. -/
theorem isPlainTextExtension_characterization (ext : List Char) :
    (PublisherHelpers.isPlainTextExtension ext = true
        ↔ PublisherHelpers.toLowerCase ext
          ∈ PublisherHelpers.plainTextExtensions)
      ∧ (Utils.isPlainTextExtension ext = true
        ↔ ext ∈ ["md".data, "mdx".data, "json".data, "yaml".data,
            "yml".data, "css".data]) := by
  constructor
  · simp [PublisherHelpers.isPlainTextExtension]
  · simp [Utils.isPlainTextExtension]

/-- C9 counterexample: normalization is not idempotent.  Stripping the root
prefix can expose a leading slash, which a second normalization removes:
`normalizePath("blog//x.md", "blog")` is `"/x.md"`, but normalizing that
again with the empty root gives `"x.md"`. -/
theorem normalizePath_not_idempotent :
    PublisherHelpers.normalizePath
        (PublisherHelpers.normalizePath ("blog//x.md".data) ("blog".data)) []
      ≠ PublisherHelpers.normalizePath ("blog//x.md".data) ("blog".data) := by
  decide

/-- C9 amended: renormalizing with the empty root strips leading slashes, so
idempotence holds exactly when the first normalization's result carries no
leading slash (in particular for every path without doubled slashes). -/
theorem normalizePath_idempotent_of_noLeadingSlash (p r : List Char)
    (h : PublisherHelpers.stripLeadingSlashes (PublisherHelpers.normalizePath p r)
      = PublisherHelpers.normalizePath p r) :
    PublisherHelpers.normalizePath (PublisherHelpers.normalizePath p r) []
      = PublisherHelpers.normalizePath p r :=
  h

/-- C9 witness: idempotence at the concrete path `blog/posts/a.md` with root
`blog`. -/
theorem normalizePath_idempotent_witness :
    PublisherHelpers.normalizePath
        (PublisherHelpers.normalizePath ("blog/posts/a.md".data) ("blog".data)) []
      = PublisherHelpers.normalizePath ("blog/posts/a.md".data) ("blog".data) :=
  normalizePath_idempotent_of_noLeadingSlash ("blog/posts/a.md".data)
    ("blog".data) (by decide)

/-- C10: `hasPublishFalse` answers false for every file whose extension is
neither `md` nor `mdx`, whatever the front-matter cache holds, so
`shouldSkipFile` can only skip such a file through the root-scope or the
exclusion patterns. -/
theorem hasPublishFalse_only_markdown (re : RegexEngine) (file : TFileModel)
    (app : AppModel) (rootDir : List Char) (patterns : List (List Char))
    (h1 : file.extension ≠ "md".data) (h2 : file.extension ≠ "mdx".data) :
    PublisherHelpers.hasPublishFalse file app = false
      ∧ PublisherHelpers.shouldSkipFile re file app rootDir patterns
        = (!PublisherHelpers.isWithinRootDir file.path rootDir
            || PublisherHelpers.matchesExcludePatterns re file.path patterns) := by
  have hc : (!(file.extension == "md".data)
      && !(file.extension == "mdx".data)) = true := by
    simp [h1, h2]
  have hpf : PublisherHelpers.hasPublishFalse file app = false := by
    unfold PublisherHelpers.hasPublishFalse
    simp [hc]
  refine ⟨hpf, ?_⟩
  unfold PublisherHelpers.shouldSkipFile
  rw [hpf]
  simp

/-- C10 witness: a `png` file whose cached front-matter says `publish: false`
is still not skipped (empty root, no patterns). -/
theorem hasPublishFalse_only_markdown_witness :
    PublisherHelpers.hasPublishFalse pngFile publishFalseApp = false
      ∧ PublisherHelpers.shouldSkipFile re0 pngFile publishFalseApp [] []
        = (!PublisherHelpers.isWithinRootDir pngFile.path []
            || PublisherHelpers.matchesExcludePatterns re0 pngFile.path []) :=
  hasPublishFalse_only_markdown re0 pngFile publishFalseApp [] []
    (by decide) (by decide)

/-- C5: `publishBatch` with no files to publish and no files to delete
rejects with the validation error, with an empty trace: no progress signal
and no remote call precede the rejection.  (An absent list and an explicitly
empty list coincide in the model, as they do in the source's truthiness
test.) -/
theorem publishBatch_emptyBatch_rejects (oracle : Publisher.RemoteOracle)
    (digest : Utils.DigestFn) (rootDir : List Char) :
    Publisher.publishBatch oracle digest rootDir ⟨[], []⟩
      = ([], Except.error ⟨Publisher.noFilesMessage⟩) :=
  rfl

/-- C4: when the site exists and the dry-run `syncFiles` call throws,
`getPublishStatus` still returns (the model is total: the exception is not
propagated), with every non-skipped local file in `newFiles` and the three
other lists empty. -/
theorem getPublishStatus_failOpen (re : RegexEngine) (app : AppModel)
    (rootDir : List Char) (patterns : List (List Char))
    (localFiles : List TFileModel) (site : Publisher.Site)
    (e : Utils.FlowershowError) :
    Publisher.getPublishStatus re app rootDir patterns localFiles (some site)
        (Except.error e)
      = ⟨[], [], localFiles.filter (Publisher.notSkipped re app rootDir patterns),
          []⟩ :=
  rfl

/-- C2: whenever `publishBatch` reaches the remote batch-delete call (site
resolved, non-empty `filesToDelete`), the paths it sends are exactly the
requested paths normalized against the configured root directory. -/
theorem publishBatch_normalizes_deletePaths (oracle : Publisher.RemoteOracle)
    (digest : Utils.DigestFn) (rootDir : List Char)
    (opts : Publisher.BatchOpts) (siteId : List Char)
    (hdel : opts.filesToDelete ≠ [])
    (hsite : oracle.ensureSiteOutcome = Except.ok siteId) :
    Publisher.Event.callDeleteFiles siteId
        (opts.filesToDelete.map
          (fun p => PublisherHelpers.normalizePath p rootDir))
      ∈ (Publisher.publishBatch oracle digest rootDir opts).1 := by
  have hguard : (opts.filesToPublish.isEmpty
      && opts.filesToDelete.isEmpty) = false := by
    have hde : opts.filesToDelete.isEmpty = false := by
      simp [List.isEmpty_iff, hdel]
    simp [hde]
  obtain ⟨tail, htr⟩ := publishBatch_trace_structure oracle digest rootDir
    opts siteId hguard hsite
  rw [htr]
  have hmem := runDelete_mem_call oracle rootDir opts.filesToDelete siteId hdel
  simp only [List.mem_append]
  exact Or.inl (Or.inr hmem)

/-- C2 witness: with `rootDir = "blog"`, deleting `blog/old.md` sends the
normalized path `old.md` to the remote delete call. -/
theorem publishBatch_normalizes_deletePaths_witness :
    Publisher.Event.callDeleteFiles ("s1".data) [("old.md".data)]
      ∈ (Publisher.publishBatch delOracle digest0 ("blog".data)
          ⟨[], [("blog/old.md".data)]⟩).1 := by
  have h := publishBatch_normalizes_deletePaths delOracle digest0
    ("blog".data) ⟨[], [("blog/old.md".data)]⟩ ("s1".data)
    (by decide) rfl
  have hm : ([("blog/old.md".data)]).map
      (fun p => PublisherHelpers.normalizePath p ("blog".data))
      = [("old.md".data)] := by decide
  rw [hm] at h
  exact h

/-- C3: when deletions were requested and the remote delete response lists
at least one not-found path, `publishBatch` rejects with the reconciliation
error (the message of the not-found failure), and every missing path is
named inside that message; the batch is not treated as a success. -/
theorem publishBatch_notFound_rejects (oracle : Publisher.RemoteOracle)
    (digest : Utils.DigestFn) (rootDir : List Char)
    (opts : Publisher.BatchOpts) (siteId : List Char)
    (res : Publisher.DeleteFilesResponse)
    (hdel : opts.filesToDelete ≠ [])
    (hsite : oracle.ensureSiteOutcome = Except.ok siteId)
    (hout : oracle.deleteOutcome = Except.ok res)
    (hnf : res.notFound ≠ []) :
    (Publisher.publishBatch oracle digest rootDir opts).2
        = Except.error ⟨Publisher.deleteFailedMessage res.notFound⟩
      ∧ ∀ p ∈ res.notFound,
          p <:+: Publisher.deleteFailedMessage res.notFound := by
  refine ⟨?_, fun p hp => mem_infix_deleteFailedMessage hp⟩
  have hde : opts.filesToDelete.isEmpty = false := by
    simp [List.isEmpty_iff, hdel]
  have hnfe : res.notFound.isEmpty = false := by
    simp [List.isEmpty_iff, hnf]
  have hrd : (Publisher.runDelete oracle rootDir opts.filesToDelete siteId).2
      = some ⟨Publisher.deleteFailedMessage res.notFound⟩ := by
    unfold Publisher.runDelete
    simp [hde, hout, hnfe]
  unfold Publisher.publishBatch
  simp [hde, hsite, hrd]

/-- C3 witness: deleting `blog/old.md` (root `blog`) when the server reports
`old.md` as not found rejects with the reconciliation message, which names
`old.md`. -/
theorem publishBatch_notFound_rejects_witness :
    (Publisher.publishBatch delOracle digest0 ("blog".data)
          ⟨[], [("blog/old.md".data)]⟩).2
        = Except.error ⟨Publisher.deleteFailedMessage [("old.md".data)]⟩
      ∧ ∀ p ∈ [("old.md".data)],
          p <:+: Publisher.deleteFailedMessage [("old.md".data)] :=
  publishBatch_notFound_rejects delOracle digest0 ("blog".data)
    ⟨[], [("blog/old.md".data)]⟩ ("s1".data) ⟨[], [("old.md".data)]⟩
    (by decide) rfl rfl (by decide)

/-- C6 counterexample: a failed storage PUT aborts the remaining uploads of
the same batch.  With two directives whose first upload fails, the trace
ends right after the failing PUT — the sibling `url2` upload is never
attempted — and the whole `publishBatch` call rejects. -/
theorem publishBatch_upload_abort_cex :
    Publisher.publishBatch uploadFailOracle digest0 [] ⟨[aFile, bFile], []⟩
      = ([Publisher.Event.progressStart 2 0, Publisher.Event.callEnsureSite,
          Publisher.Event.callPublishFiles ("s1".data)
            [⟨"a.md".data, 2, []⟩, ⟨"b.md".data, 2, []⟩],
          Publisher.Event.callUploadToR2 ("url1".data)
            (Utils.utf8Encode ("hi".data)) ("text/markdown".data),
          Publisher.Event.progressFinish 0],
         Except.error ⟨"Failed to upload file: 500".data⟩)
      ∧ Publisher.Event.callUploadToR2 ("url2".data)
          (Utils.utf8Encode ("B!".data)) ("text/markdown".data)
        ∉ (Publisher.publishBatch uploadFailOracle digest0 []
            ⟨[aFile, bFile], []⟩).1 := by
  refine ⟨rfl, ?_⟩
  decide

/-- C6 amended: a non-2xx storage PUT is fatal for the batch from that file
on: the upload error propagates out of `publishBatch` (aborting the
not-yet-attempted sibling uploads), while uploads completed before the
failure are kept — their PUT and progress events stand and no compensating
action exists.  Stated for a batch whose directives are `d₁` (succeeds),
`d₂` (fails), followed by arbitrary further directives that are never
reached. -/
theorem publishBatch_upload_failure_scope (oracle : Publisher.RemoteOracle)
    (digest : Utils.DigestFn) (rootDir : List Char)
    (filesToPublish : List TFileModel) (siteId : List Char)
    (d₁ d₂ : Publisher.UploadUrl) (rest : List Publisher.UploadUrl)
    (f₁ f₂ : TFileModel) (e : Utils.FlowershowError)
    (hne : filesToPublish ≠ [])
    (hsite : oracle.ensureSiteOutcome = Except.ok siteId)
    (hpub : oracle.publishOutcome = Except.ok ⟨d₁ :: d₂ :: rest⟩)
    (hf1 : filesToPublish.find?
        (fun f => PublisherHelpers.normalizePath f.path rootDir == d₁.path)
      = some f₁)
    (hok : oracle.uploadOutcome d₁.uploadUrl = none)
    (hf2 : filesToPublish.find?
        (fun f => PublisherHelpers.normalizePath f.path rootDir == d₂.path)
      = some f₂)
    (hfail : oracle.uploadOutcome d₂.uploadUrl = some e) :
    Publisher.publishBatch oracle digest rootDir ⟨filesToPublish, []⟩
      = ([Publisher.Event.progressStart filesToPublish.length 0,
          Publisher.Event.callEnsureSite,
          Publisher.Event.callPublishFiles siteId
            (filesToPublish.map (Publisher.buildFileMetadata digest rootDir)),
          Publisher.Event.callUploadToR2 d₁.uploadUrl
            (Publisher.fileContent f₁) d₁.contentType,
          Publisher.Event.incrementPublish,
          Publisher.Event.callUploadToR2 d₂.uploadUrl
            (Publisher.fileContent f₂) d₂.contentType,
          Publisher.Event.progressFinish 0],
         Except.error e) := by
  have hne' : filesToPublish.isEmpty = false := by
    simp [List.isEmpty_iff, hne]
  have hru2 : Publisher.runUploads oracle filesToPublish rootDir (d₂ :: rest)
      = ([Publisher.Event.callUploadToR2 d₂.uploadUrl
          (Publisher.fileContent f₂) d₂.contentType], some e) := by
    unfold Publisher.runUploads
    rw [hf2, hfail]
  have hru : Publisher.runUploads oracle filesToPublish rootDir
        (d₁ :: d₂ :: rest)
      = ([Publisher.Event.callUploadToR2 d₁.uploadUrl
            (Publisher.fileContent f₁) d₁.contentType,
          Publisher.Event.incrementPublish,
          Publisher.Event.callUploadToR2 d₂.uploadUrl
            (Publisher.fileContent f₂) d₂.contentType], some e) := by
    unfold Publisher.runUploads
    rw [hf1, hok, hru2]
  have hrp : Publisher.runPublish oracle digest rootDir filesToPublish siteId
      = (Publisher.Event.callPublishFiles siteId
            (filesToPublish.map (Publisher.buildFileMetadata digest rootDir))
          :: [Publisher.Event.callUploadToR2 d₁.uploadUrl
              (Publisher.fileContent f₁) d₁.contentType,
            Publisher.Event.incrementPublish,
            Publisher.Event.callUploadToR2 d₂.uploadUrl
              (Publisher.fileContent f₂) d₂.contentType],
         some e) := by
    unfold Publisher.runPublish
    simp [hne', hpub, hru]
  unfold Publisher.publishBatch
  simp [hne', hsite, Publisher.runDelete, hrp]

/-- C6 witness: first upload succeeds, second fails: the completed `url1`
upload is kept (its events stand, nothing is rolled back), the `url2`
failure rejects the batch and nothing after it runs. -/
theorem publishBatch_upload_failure_scope_witness :
    Publisher.publishBatch partialFailOracle digest0 [] ⟨[aFile, bFile], []⟩
      = ([Publisher.Event.progressStart 2 0,
          Publisher.Event.callEnsureSite,
          Publisher.Event.callPublishFiles ("s1".data)
            ([aFile, bFile].map (Publisher.buildFileMetadata digest0 [])),
          Publisher.Event.callUploadToR2 ("url1".data)
            (Publisher.fileContent aFile) ("text/markdown".data),
          Publisher.Event.incrementPublish,
          Publisher.Event.callUploadToR2 ("url2".data)
            (Publisher.fileContent bFile) ("text/markdown".data),
          Publisher.Event.progressFinish 0],
         Except.error ⟨"Failed to upload file: 502".data⟩) :=
  publishBatch_upload_failure_scope partialFailOracle digest0 []
    [aFile, bFile] ("s1".data) u1 u2 [] aFile bFile
    ⟨"Failed to upload file: 502".data⟩
    (by decide) rfl rfl (by decide) (by decide) (by decide) (by decide)

/-- C1 counterexample: the classification loop drops a file the sync
response fails to mention, and copies the response's `deleted` list
verbatim.  With one local non-skipped file `a.md` and a response whose
`unchanged`/`toUpdate`/`toUpload` are all empty but whose `deleted` reports
`a.md` (a path that is seen locally), the file lands in none of the three
lists and `deletedFiles` still carries `a.md`: the union of the three lists
is not the non-skipped local set, and `deletedFiles` is not confined to
remote-only paths. -/
theorem getPublishStatus_partition_cex :
    Publisher.getPublishStatus re0 emptyApp [] [] [aFile] (some site0)
        (Except.ok cexSyncResponse)
      = ⟨[], [], [], [("a.md".data)]⟩
      ∧ Publisher.notSkipped re0 emptyApp [] [] aFile = true
      ∧ PublisherHelpers.normalizePath aFile.path [] = ("a.md".data) := by
  refine ⟨rfl, by decide, by decide⟩

/-- C1 amended: provided the sync response mentions every submitted path
(each non-skipped local file's normalized path occurs in `unchanged`,
`toUpdate` or `toUpload` — the documented server contract), the three
returned lists are pairwise disjoint and their union is exactly the set of
non-skipped local files; `deletedFiles` is the response's `deleted` list
verbatim (the code does not remove locally-seen paths from it). -/
theorem getPublishStatus_partition (re : RegexEngine) (app : AppModel)
    (rootDir : List Char) (patterns : List (List Char))
    (localFiles : List TFileModel) (site : Publisher.Site)
    (r : Publisher.SyncFilesResponse)
    (hcov : ∀ f ∈ localFiles,
      Publisher.notSkipped re app rootDir patterns f = true →
      (r.unchanged.contains (PublisherHelpers.normalizePath f.path rootDir)
        || r.toUpdate.any (fun u =>
            u.path == PublisherHelpers.normalizePath f.path rootDir)
        || r.toUpload.any (fun u =>
            u.path == PublisherHelpers.normalizePath f.path rootDir)) = true) :
    (∀ f : TFileModel,
        (f ∈ (Publisher.getPublishStatus re app rootDir patterns localFiles
              (some site) (Except.ok r)).unchangedFiles
          ∨ f ∈ (Publisher.getPublishStatus re app rootDir patterns localFiles
              (some site) (Except.ok r)).changedFiles
          ∨ f ∈ (Publisher.getPublishStatus re app rootDir patterns localFiles
              (some site) (Except.ok r)).newFiles)
        ↔ (f ∈ localFiles
            ∧ Publisher.notSkipped re app rootDir patterns f = true))
      ∧ (∀ f : TFileModel,
          ¬(f ∈ (Publisher.getPublishStatus re app rootDir patterns localFiles
                (some site) (Except.ok r)).unchangedFiles
            ∧ f ∈ (Publisher.getPublishStatus re app rootDir patterns localFiles
                (some site) (Except.ok r)).changedFiles)
          ∧ ¬(f ∈ (Publisher.getPublishStatus re app rootDir patterns localFiles
                (some site) (Except.ok r)).unchangedFiles
            ∧ f ∈ (Publisher.getPublishStatus re app rootDir patterns localFiles
                (some site) (Except.ok r)).newFiles)
          ∧ ¬(f ∈ (Publisher.getPublishStatus re app rootDir patterns localFiles
                (some site) (Except.ok r)).changedFiles
            ∧ f ∈ (Publisher.getPublishStatus re app rootDir patterns localFiles
                (some site) (Except.ok r)).newFiles))
      ∧ (Publisher.getPublishStatus re app rootDir patterns localFiles
          (some site) (Except.ok r)).deletedFiles = r.deleted := by
  have hu : (Publisher.getPublishStatus re app rootDir patterns localFiles
        (some site) (Except.ok r)).unchangedFiles
      = localFiles.filter (fun f =>
          Publisher.notSkipped re app rootDir patterns f
            && r.unchanged.contains
              (PublisherHelpers.normalizePath f.path rootDir)) := rfl
  have hch : (Publisher.getPublishStatus re app rootDir patterns localFiles
        (some site) (Except.ok r)).changedFiles
      = localFiles.filter (fun f =>
          Publisher.notSkipped re app rootDir patterns f
            && !r.unchanged.contains
              (PublisherHelpers.normalizePath f.path rootDir)
            && r.toUpdate.any (fun u =>
              u.path == PublisherHelpers.normalizePath f.path rootDir)) := rfl
  have hnw : (Publisher.getPublishStatus re app rootDir patterns localFiles
        (some site) (Except.ok r)).newFiles
      = localFiles.filter (fun f =>
          Publisher.notSkipped re app rootDir patterns f
            && !r.unchanged.contains
              (PublisherHelpers.normalizePath f.path rootDir)
            && !r.toUpdate.any (fun u =>
              u.path == PublisherHelpers.normalizePath f.path rootDir)
            && r.toUpload.any (fun u =>
              u.path == PublisherHelpers.normalizePath f.path rootDir)) := rfl
  refine ⟨?_, ?_, rfl⟩
  · intro f
    rw [hu, hch, hnw]
    simp only [List.mem_filter, Bool.and_eq_true]
    constructor
    · rintro (⟨hf, hns, _⟩ | ⟨hf, ⟨⟨hns, _⟩, _⟩⟩ | ⟨hf, ⟨⟨⟨hns, _⟩, _⟩, _⟩⟩)
      · exact ⟨hf, hns⟩
      · exact ⟨hf, hns⟩
      · exact ⟨hf, hns⟩
    · rintro ⟨hf, hns⟩
      have hor := hcov f hf hns
      simp only [Bool.or_eq_true] at hor
      by_cases hA : r.unchanged.contains
          (PublisherHelpers.normalizePath f.path rootDir) = true
      · exact Or.inl ⟨hf, hns, hA⟩
      · have hA' : r.unchanged.contains
            (PublisherHelpers.normalizePath f.path rootDir) = false := by
          simpa using hA
        by_cases hB : r.toUpdate.any (fun u =>
            u.path == PublisherHelpers.normalizePath f.path rootDir) = true
        · exact Or.inr (Or.inl ⟨hf, ⟨⟨hns, by rw [hA']; rfl⟩, hB⟩⟩)
        · have hB' : (r.toUpdate.any (fun u =>
              u.path == PublisherHelpers.normalizePath f.path rootDir))
                = false := by
            simpa using hB
          have hC : (r.toUpload.any (fun u =>
              u.path == PublisherHelpers.normalizePath f.path rootDir))
                = true := by
            rcases hor with (h | h) | h
            · exact Bool.noConfusion (h.symm.trans hA')
            · exact Bool.noConfusion (h.symm.trans hB')
            · exact h
          exact Or.inr (Or.inr
            ⟨hf, ⟨⟨⟨hns, by rw [hA']; rfl⟩, by rw [hB']; rfl⟩, hC⟩⟩)
  · intro f
    rw [hu, hch, hnw]
    simp only [List.mem_filter, Bool.and_eq_true]
    refine ⟨?_, ?_, ?_⟩
    · rintro ⟨⟨_, _, hA⟩, ⟨_, ⟨⟨_, hnA⟩, _⟩⟩⟩
      rw [hA] at hnA
      exact Bool.noConfusion hnA
    · rintro ⟨⟨_, _, hA⟩, ⟨_, ⟨⟨⟨_, hnA⟩, _⟩, _⟩⟩⟩
      rw [hA] at hnA
      exact Bool.noConfusion hnA
    · rintro ⟨⟨_, ⟨_, hB⟩⟩, ⟨_, ⟨⟨⟨_, _⟩, hnB⟩, _⟩⟩⟩
      rw [hB] at hnB
      exact Bool.noConfusion hnB

/-- C1 witness: one local file `a.md`, non-skipped, and a response marking
`a.md` unchanged: the amended partition holds (the file sits exactly in
`unchangedFiles`, and `deletedFiles` copies the empty `deleted` list). -/
theorem getPublishStatus_partition_witness :
    (∀ f : TFileModel,
        (f ∈ (Publisher.getPublishStatus re0 emptyApp [] [] [aFile]
              (some site0) (Except.ok unchangedSyncResponse)).unchangedFiles
          ∨ f ∈ (Publisher.getPublishStatus re0 emptyApp [] [] [aFile]
              (some site0) (Except.ok unchangedSyncResponse)).changedFiles
          ∨ f ∈ (Publisher.getPublishStatus re0 emptyApp [] [] [aFile]
              (some site0) (Except.ok unchangedSyncResponse)).newFiles)
        ↔ (f ∈ [aFile]
            ∧ Publisher.notSkipped re0 emptyApp [] [] f = true))
      ∧ (∀ f : TFileModel,
          ¬(f ∈ (Publisher.getPublishStatus re0 emptyApp [] [] [aFile]
                (some site0) (Except.ok unchangedSyncResponse)).unchangedFiles
            ∧ f ∈ (Publisher.getPublishStatus re0 emptyApp [] [] [aFile]
                (some site0) (Except.ok unchangedSyncResponse)).changedFiles)
          ∧ ¬(f ∈ (Publisher.getPublishStatus re0 emptyApp [] [] [aFile]
                (some site0) (Except.ok unchangedSyncResponse)).unchangedFiles
            ∧ f ∈ (Publisher.getPublishStatus re0 emptyApp [] [] [aFile]
                (some site0) (Except.ok unchangedSyncResponse)).newFiles)
          ∧ ¬(f ∈ (Publisher.getPublishStatus re0 emptyApp [] [] [aFile]
                (some site0) (Except.ok unchangedSyncResponse)).changedFiles
            ∧ f ∈ (Publisher.getPublishStatus re0 emptyApp [] [] [aFile]
                (some site0) (Except.ok unchangedSyncResponse)).newFiles))
      ∧ (Publisher.getPublishStatus re0 emptyApp [] [] [aFile] (some site0)
          (Except.ok unchangedSyncResponse)).deletedFiles
        = unchangedSyncResponse.deleted :=
  getPublishStatus_partition re0 emptyApp [] [] [aFile] site0
    unchangedSyncResponse (by decide)
